import Mathlib

/-!
Verification development for the `marksman` repository (Rust, two modules:
`resy_client.rs` and `resy_api_gateway.rs`).

Strings are modelled as `List Char` (the character content of a Rust `String`
or `&str`); where byte-level behaviour matters (UTF-8 slice boundaries,
percent-encoding, HTTP header byte validation) we additionally model the
UTF-8 byte sequence as `List Nat` via `utf8Encode`.

Operations that in Rust can panic (`unwrap`, `str` range indexing) are
modelled as `Option`-returning functions where `none` marks the panic.
Network transmission and JSON parsing (the `reqwest` and `serde_json`
dependencies) are passed in as explicit function parameters, so theorems
quantify over every possible transport behaviour and parser outcome.
-/

namespace Marksman

/-- Substring search, modelling Rust `str::find(&str)`: returns the index of
the first occurrence of `pat` in `s`, scanning left to right. Auxiliary
function carrying the current index. -/
def findSubstrAux {α : Type} [DecidableEq α] (pat : List α) : List α → Nat → Option Nat
  | [], i => if pat.isPrefixOf [] then some i else none
  | a :: t, i => if pat.isPrefixOf (a :: t) then some i else findSubstrAux pat t (i + 1)

/-- Substring search from index 0, modelling Rust `str::find`. -/
def findSubstr {α : Type} [DecidableEq α] (pat s : List α) : Option Nat :=
  findSubstrAux pat s 0

/-- The marker string "venues/" searched for by `extract_venue_slug`. -/
def markerChars : List Char := ['v', 'e', 'n', 'u', 'e', 's', '/']

/-- Character-level model of `extract_venue_slug` (src/resy_client.rs):
find "venues/" in the URL; on a hit, take everything after the marker up to
(but not including) the first '?' (or to end of string); otherwise return
the empty string. Rust indexes bytes, but since the marker and '?' are
ASCII the extracted text is the same sequence of characters; the byte-exact
model is `extract_venue_slug_bytes` below. -/
def extract_venue_slug (url : List Char) : List Char :=
  match findSubstr markerChars url with
  | some st =>
      let start := st + 7
      let rest := url.drop start
      let e := (rest.findIdx? (fun c => c = '?')).getD rest.length
      rest.take e
  | none => []

/-- Helper building the optional query-string tail of a URL: either nothing,
or a '?' followed by arbitrary trailing text. -/
def optTail : Option (List Char) → List Char
  | none => []
  | some t => '?' :: t

/-- Model of `UserAuth` (src/resy_client.rs). -/
structure UserAuth where
  api_key : List Char
  auth_token : List Char

/-- Model of `ResyClient` (src/resy_client.rs). -/
structure ResyClient where
  venue_id : List Char
  user_auth : UserAuth

/-- Model of `ResyClient::new`. -/
def ResyClient.new : ResyClient :=
  { venue_id := [], user_auth := { api_key := [], auth_token := [] } }

/-- Model of `ResyClient::get_venue_id` (src/resy_client.rs): computes the
venue slug from the URL but then assigns the hardcoded placeholder string to
`venue_id` (the `println!` side effect is not modelled). -/
def ResyClient.get_venue_id (c : ResyClient) (url : List Char) : ResyClient :=
  let _venue_slug := extract_venue_slug url
  { c with venue_id := "Extracted ID based on URL".toList }

/-- A UTF-8 continuation byte (0x80..0xBF). -/
def isCont (b : Nat) : Bool := 128 ≤ b && b < 192

/-- UTF-8 encoding of a single character (RFC 3629 byte layout). -/
def encodeChar (c : Char) : List Nat :=
  if c.toNat < 128 then [c.toNat]
  else if c.toNat < 2048 then [192 + c.toNat / 64, 128 + c.toNat % 64]
  else if c.toNat < 65536 then
    [224 + c.toNat / 4096, 128 + c.toNat / 64 % 64, 128 + c.toNat % 64]
  else
    [240 + c.toNat / 262144, 128 + c.toNat / 4096 % 64, 128 + c.toNat / 64 % 64,
      128 + c.toNat % 64]

/-- UTF-8 byte sequence of a string, as Rust's `str::as_bytes` exposes it. -/
def utf8Encode (s : List Char) : List Nat :=
  (s.map encodeChar).flatten

/-- Model of Rust `str::is_char_boundary` on the byte sequence: index 0 and
the end of the string are boundaries, and otherwise an in-range index is a
boundary exactly when the byte there is not a UTF-8 continuation byte. -/
def is_char_boundary (s : List Nat) (i : Nat) : Bool :=
  if i = 0 then true
  else
    match s[i]? with
    | none => i == s.length
    | some b => !(isCont b)

/-- Model of Rust `str` range indexing `s[a..b]`: panics (`none`) unless
`a ≤ b` and both `a` and `b` are character boundaries. -/
def strSlice (s : List Nat) (a b : Nat) : Option (List Nat) :=
  if a ≤ b && is_char_boundary s a && is_char_boundary s b then
    some ((s.take b).drop a)
  else none

/-- UTF-8 bytes of the marker "venues/". -/
def markerBytes : List Nat := [118, 101, 110, 117, 101, 115, 47]

/-- Byte-exact model of `extract_venue_slug` (src/resy_client.rs): Rust
`str::find` returns a byte offset, `+ "venues/".len()` adds 7, `url[start..]`
and `url[start..start + end]` are panicking range slices, and `find('?')`
scans for the byte 0x3F. `none` marks a slice panic. -/
def extract_venue_slug_bytes (url : List Nat) : Option (List Nat) :=
  match findSubstr markerBytes url with
  | some st =>
      let start := st + 7
      match strSlice url start url.length with
      | none => none
      | some rest =>
          let e := (rest.findIdx? (fun b => b = 63)).getD rest.length
          strSlice url start (start + e)
  | none => some []

/-- Untyped JSON value, modelling `serde_json::Value`. -/
inductive Json where
  | null
  | bool (b : Bool)
  | num (n : Int)
  | str (s : List Char)
  | arr (elems : List Json)
  | obj (fields : List (List Char × Json))

/-- Model of `ResyAPIError` (src/resy_api_gateway.rs): a message-carrying
error. -/
structure ResyAPIError where
  message : List Char

/-- Model of the dynamic error type `Box<dyn Error>` returned by the gateway:
either a `ResyAPIError`, a propagated JSON parse error, or a propagated
network (reqwest) error. -/
inductive DynError where
  | resy (e : ResyAPIError)
  | jsonParse (msg : List Char)
  | reqwestFail (msg : List Char)

/-- Model of an HTTP response as the gateway observes it: a numeric status
code and a raw body. -/
structure HttpResponse where
  status : Nat
  body : List Char

/-- Model of `StatusCode::is_success` from the `http` crate: 2xx. -/
def is_success (status : Nat) : Bool :=
  decide (200 ≤ status) && decide (status < 300)

/-- Canonical reason phrase of a status code, modelling the `http` crate's
`StatusCode::canonical_reason` (an external dependency; restricted here to
common codes, defaulting to the crate's placeholder text). -/
def canonicalReason (code : Nat) : List Char :=
  if code = 200 then "OK".toList
  else if code = 201 then "Created".toList
  else if code = 204 then "No Content".toList
  else if code = 301 then "Moved Permanently".toList
  else if code = 302 then "Found".toList
  else if code = 400 then "Bad Request".toList
  else if code = 401 then "Unauthorized".toList
  else if code = 403 then "Forbidden".toList
  else if code = 404 then "Not Found".toList
  else if code = 409 then "Conflict".toList
  else if code = 429 then "Too Many Requests".toList
  else if code = 500 then "Internal Server Error".toList
  else if code = 502 then "Bad Gateway".toList
  else if code = 503 then "Service Unavailable".toList
  else "<unknown status code>".toList

/-- `Display` rendering of a status code ("404 Not Found"), modelling the
`http` crate's `impl Display for StatusCode`. -/
def statusDisplay (code : Nat) : List Char :=
  (toString code).toList ++ ' ' :: canonicalReason code

/-- Model of `ResyAPIGateway::process_response` (src/resy_api_gateway.rs):
on a success status parse the body as JSON (propagating a parse failure),
otherwise produce a `ResyAPIError` with message
`format!("API request failed: {}", response.status())`. The `serde_json`
parser is an explicit parameter. -/
def process_response (parseJson : List Char → Except (List Char) Json)
    (response : HttpResponse) : Except DynError Json :=
  if is_success response.status then
    match parseJson response.body with
    | Except.ok j => Except.ok j
    | Except.error m => Except.error (DynError.jsonParse m)
  else
    Except.error (DynError.resy
      { message := "API request failed: ".toList ++ statusDisplay response.status })

/-- HTTP method of an outgoing request. -/
inductive HttpMethod where
  | get
  | post

/-- Body of an outgoing request: absent (GET), a JSON document
(`RequestBuilder::json`), or a raw string (`RequestBuilder::body`). -/
inductive RequestBody where
  | empty
  | jsonBody (j : Json)
  | raw (s : List Char)

/-- An outgoing HTTP request as the gateway assembles it. -/
structure Request where
  method : HttpMethod
  url : List Char
  headers : List (List Char × List Char)
  body : RequestBody

/-- Model of `ResyAPIGateway` (src/resy_api_gateway.rs); the `reqwest`
client handle carries no state relevant to the spec and is omitted. -/
structure ResyAPIGateway where
  api_key : List Char
  auth_token : List Char

/-- Model of `ResyAPIGateway::new`. -/
def ResyAPIGateway.new (api_key auth_token : List Char) : ResyAPIGateway :=
  { api_key := api_key, auth_token := auth_token }

/-- Validity of one byte of an HTTP header value, modelling the `http`
crate's `HeaderValue` check: visible chars and spaces (32..126, 128..255)
plus horizontal tab. -/
def headerByteValid (b : Nat) : Bool :=
  (decide (32 ≤ b) && !(b == 127)) || b == 9

/-- Validity of a whole string as an HTTP header value
(`HeaderValue::from_str` succeeds exactly when every byte is valid). -/
def headerValueValid (s : List Char) : Bool :=
  (utf8Encode s).all headerByteValid

/-- The constant `RESY_API_BASE_URL` (src/resy_api_gateway.rs). -/
def RESY_API_BASE_URL : List Char := "https://api.resy.com".toList

/-- Model of `ResyAPIGateway::setup_headers` (src/resy_api_gateway.rs):
inserts `Authorization: ResyAPI api_key="<key>"` and
`x-resy-auth-token: <token>`; each `HeaderValue::from_str(..).unwrap()`
panics (`none`) when the value contains an invalid header byte. -/
def ResyAPIGateway.setup_headers (g : ResyAPIGateway) :
    Option (List (List Char × List Char)) :=
  if headerValueValid ("ResyAPI api_key=\"".toList ++ g.api_key ++ ['"']) then
    if headerValueValid g.auth_token then
      some [("Authorization".toList,
              "ResyAPI api_key=\"".toList ++ g.api_key ++ ['"']),
            ("x-resy-auth-token".toList, g.auth_token)]
    else none
  else none

/-- A byte kept verbatim by `urlencoding::encode`: ASCII alphanumeric or
`-`, `.`, `_`, `~`. -/
def isUrlSafeByte (b : Nat) : Bool :=
  (decide (48 ≤ b) && decide (b ≤ 57)) || (decide (65 ≤ b) && decide (b ≤ 90)) ||
    (decide (97 ≤ b) && decide (b ≤ 122)) || b == 45 || b == 46 || b == 95 || b == 126

/-- Uppercase hexadecimal digit character. -/
def hexDigitChar (n : Nat) : Char :=
  if n < 10 then Char.ofNat (48 + n) else Char.ofNat (55 + n)

/-- Model of `urlencoding::encode` (external dependency): percent-encodes
every UTF-8 byte outside the unreserved set as `%XX` with uppercase hex. -/
def urlencode (s : List Char) : List Char :=
  ((utf8Encode s).map fun b =>
    if isUrlSafeByte b then [Char.ofNat b]
    else ['%', hexDigitChar (b / 16), hexDigitChar (b % 16)]).flatten

/-- Model of `ResyAPIGateway::get_user` request assembly: GET `/2/user` with
the shared headers; `none` when `setup_headers` panics. -/
def ResyAPIGateway.get_user_request (g : ResyAPIGateway) : Option Request :=
  g.setup_headers.map fun headers =>
    { method := HttpMethod.get
      url := RESY_API_BASE_URL ++ "/2/user".toList
      headers := headers
      body := RequestBody.empty }

/-- Model of `ResyAPIGateway::get_venue` request assembly: GET
`/3/venue?url_slug=<slug>&location=new-york-ny`. -/
def ResyAPIGateway.get_venue_request (g : ResyAPIGateway) (venue_slug : List Char) :
    Option Request :=
  g.setup_headers.map fun headers =>
    { method := HttpMethod.get
      url := RESY_API_BASE_URL ++ "/3/venue?url_slug=".toList ++ venue_slug ++
        "&location=new-york-ny".toList
      headers := headers
      body := RequestBody.empty }

/-- Model of `ResyAPIGateway::find_reservation` request assembly: GET
`/4/find?lat=0&long=0&day=<day>&party_size=<n>&venue_id=<id>`. -/
def ResyAPIGateway.find_reservation_request (g : ResyAPIGateway)
    (venue_id day : List Char) (party_size : Nat) : Option Request :=
  g.setup_headers.map fun headers =>
    { method := HttpMethod.get
      url := RESY_API_BASE_URL ++ "/4/find?lat=0&long=0&day=".toList ++ day ++
        "&party_size=".toList ++ (toString party_size).toList ++
        "&venue_id=".toList ++ venue_id
      headers := headers
      body := RequestBody.empty }

/-- Model of `ResyAPIGateway::get_reservation_details` request assembly:
POST `/3/details` with the `json!` document holding commit flag, config id,
day and party size. -/
def ResyAPIGateway.get_reservation_details_request (g : ResyAPIGateway)
    (commit : Nat) (config_id : List Char) (party_size : Nat) (day : List Char) :
    Option Request :=
  g.setup_headers.map fun headers =>
    { method := HttpMethod.post
      url := RESY_API_BASE_URL ++ "/3/details".toList
      headers := headers
      body := RequestBody.jsonBody (Json.obj
        [("commit".toList, Json.num commit),
         ("config_id".toList, Json.str config_id),
         ("day".toList, Json.str day),
         ("party_size".toList, Json.num party_size)]) }

/-- Model of `ResyAPIGateway::book_reservation` request assembly: POST
`/3/book` with the form body
`format!("book_token={}&struct_payment_method=\x7b\"id\":{}\x7d",
urlencoding::encode(book_token), payment_id)`. -/
def ResyAPIGateway.book_reservation_request (g : ResyAPIGateway)
    (book_token : List Char) (payment_id : Int) : Option Request :=
  g.setup_headers.map fun headers =>
    { method := HttpMethod.post
      url := RESY_API_BASE_URL ++ "/3/book".toList
      headers := headers
      body := RequestBody.raw ("book_token=".toList ++ urlencode book_token ++
        "&struct_payment_method=\x7b\"id\":".toList ++
        (toString payment_id).toList ++ "\x7d".toList) }

/-- Shared tail of every gateway operation: `send(..).await?` (propagating a
transport failure) followed by `process_response`. The transport `send` and
the JSON parser are explicit parameters; `none` propagates a header panic. -/
def run_request (send : Request → Except (List Char) HttpResponse)
    (parseJson : List Char → Except (List Char) Json) :
    Option Request → Option (Except DynError Json)
  | none => none
  | some req =>
      match send req with
      | Except.error m => some (Except.error (DynError.reqwestFail m))
      | Except.ok res => some (process_response parseJson res)

/-- Model of `ResyAPIGateway::get_user`. -/
def ResyAPIGateway.get_user (g : ResyAPIGateway)
    (send : Request → Except (List Char) HttpResponse)
    (parseJson : List Char → Except (List Char) Json) :
    Option (Except DynError Json) :=
  run_request send parseJson g.get_user_request

/-- Model of `ResyAPIGateway::get_venue`. -/
def ResyAPIGateway.get_venue (g : ResyAPIGateway)
    (send : Request → Except (List Char) HttpResponse)
    (parseJson : List Char → Except (List Char) Json)
    (venue_slug : List Char) : Option (Except DynError Json) :=
  run_request send parseJson (g.get_venue_request venue_slug)

/-- Model of `ResyAPIGateway::find_reservation`. -/
def ResyAPIGateway.find_reservation (g : ResyAPIGateway)
    (send : Request → Except (List Char) HttpResponse)
    (parseJson : List Char → Except (List Char) Json)
    (venue_id day : List Char) (party_size : Nat) : Option (Except DynError Json) :=
  run_request send parseJson (g.find_reservation_request venue_id day party_size)

/-- Model of `ResyAPIGateway::get_reservation_details`. -/
def ResyAPIGateway.get_reservation_details (g : ResyAPIGateway)
    (send : Request → Except (List Char) HttpResponse)
    (parseJson : List Char → Except (List Char) Json)
    (commit : Nat) (config_id : List Char) (party_size : Nat) (day : List Char) :
    Option (Except DynError Json) :=
  run_request send parseJson (g.get_reservation_details_request commit config_id party_size day)

/-- Model of `ResyAPIGateway::book_reservation`. -/
def ResyAPIGateway.book_reservation (g : ResyAPIGateway)
    (send : Request → Except (List Char) HttpResponse)
    (parseJson : List Char → Except (List Char) Json)
    (book_token : List Char) (payment_id : Int) : Option (Except DynError Json) :=
  run_request send parseJson (g.book_reservation_request book_token payment_id)

/-- Concrete JSON parser used by witnesses: accepts exactly the body "null". -/
def parseW : List Char → Except (List Char) Json :=
  fun s => if s = "null".toList then Except.ok Json.null
           else Except.error "invalid JSON".toList

/-- Concrete gateway used by witnesses. -/
def gW : ResyAPIGateway := ResyAPIGateway.new "test-key".toList "test-token".toList

/-- Concrete successful response used by witnesses. -/
def rOk : HttpResponse := { status := 200, body := "null".toList }

/-- Concrete successful response with a malformed body, used by witnesses. -/
def rBadBody : HttpResponse := { status := 200, body := "oops".toList }

/-- Concrete failing response used by witnesses. -/
def r404 : HttpResponse := { status := 404, body := "null".toList }

/-- Concrete transport used by witnesses: every request gets `rOk`. -/
def sendW : Request → Except (List Char) HttpResponse := fun _ => Except.ok rOk

/-- The concrete request `gW.get_user_request` produces. -/
def reqUserW : Request :=
  { method := HttpMethod.get
    url := RESY_API_BASE_URL ++ "/2/user".toList
    headers := [("Authorization".toList,
                  "ResyAPI api_key=\"".toList ++ "test-key".toList ++ ['"']),
                ("x-resy-auth-token".toList, "test-token".toList)]
    body := RequestBody.empty }

/-- The concrete request `gW.book_reservation_request "a b" 7` produces. -/
def reqBookW : Request :=
  { method := HttpMethod.post
    url := RESY_API_BASE_URL ++ "/3/book".toList
    headers := [("Authorization".toList,
                  "ResyAPI api_key=\"".toList ++ "test-key".toList ++ ['"']),
                ("x-resy-auth-token".toList, "test-token".toList)]
    body := RequestBody.raw ("book_token=".toList ++ urlencode "a b".toList ++
      "&struct_payment_method=\x7b\"id\":".toList ++
      (toString (7 : Int)).toList ++ "\x7d".toList) }

section FindSubstrLemmas

variable {α : Type} [DecidableEq α]

theorem findSubstrAux_succ (pat : List α) :
    ∀ (s : List α) (i : Nat),
      findSubstrAux pat s (i + 1) = Option.map (· + 1) (findSubstrAux pat s i) := by
  intro s
  induction s with
  | nil => intro i; simp only [findSubstrAux]; split <;> simp
  | cons a t ih =>
    intro i
    simp only [findSubstrAux]
    split
    · simp
    · exact ih (i + 1)

theorem findSubstr_cons (pat : List α) (a : α) (t : List α) :
    findSubstr pat (a :: t) =
      if pat.isPrefixOf (a :: t) then some 0
      else Option.map (· + 1) (findSubstr pat t) := by
  simp only [findSubstr, findSubstrAux]
  split
  · rfl
  · exact findSubstrAux_succ pat t 0

theorem findSubstr_prefix_of_eq_some (pat : List α) :
    ∀ (s : List α) (j : Nat), findSubstr pat s = some j → pat <+: s.drop j := by
  intro s
  induction s with
  | nil =>
    intro j h
    simp only [findSubstr, findSubstrAux] at h
    split at h
    · rename_i hp
      cases h
      simpa using List.isPrefixOf_iff_prefix.mp hp
    · cases h
  | cons a t ih =>
    intro j h
    rw [findSubstr_cons] at h
    split at h
    · rename_i hp
      cases h
      simpa using List.isPrefixOf_iff_prefix.mp hp
    · rcases Option.map_eq_some'.mp h with ⟨j', hj', rfl⟩
      simpa [List.drop_succ_cons] using ih j' hj'

theorem findSubstr_min_of_eq_some (pat : List α) :
    ∀ (s : List α) (j : Nat), findSubstr pat s = some j →
      ∀ k < j, ¬ pat <+: s.drop k := by
  intro s
  induction s with
  | nil =>
    intro j h
    simp only [findSubstr, findSubstrAux] at h
    split at h
    · cases h; intro k hk; omega
    · cases h
  | cons a t ih =>
    intro j h
    rw [findSubstr_cons] at h
    split at h
    · cases h; intro k hk; omega
    · rename_i hp
      rcases Option.map_eq_some'.mp h with ⟨j', hj', rfl⟩
      intro k hk
      match k with
      | 0 =>
        intro hcontra
        exact hp (List.isPrefixOf_iff_prefix.mpr (by simpa using hcontra))
      | k' + 1 =>
        have hk' : k' < j' := by omega
        simpa [List.drop_succ_cons] using ih j' hj' k' hk'

theorem findSubstr_le_of_prefix (pat : List α) :
    ∀ (s : List α) (j : Nat), pat <+: s.drop j →
      ∃ k ≤ j, findSubstr pat s = some k := by
  intro s
  induction s with
  | nil =>
    intro j h
    simp only [List.drop_nil] at h
    have hpat : pat = [] := List.prefix_nil.mp h
    refine ⟨0, Nat.zero_le j, ?_⟩
    simp [findSubstr, findSubstrAux, hpat, List.isPrefixOf_iff_prefix]
  | cons a t ih =>
    intro j h
    rw [findSubstr_cons]
    split
    · exact ⟨0, Nat.zero_le j, rfl⟩
    · rename_i hp
      match j with
      | 0 =>
        exact absurd (List.isPrefixOf_iff_prefix.mpr (by simpa using h)) hp
      | j' + 1 =>
        rcases ih j' (by simpa [List.drop_succ_cons] using h) with ⟨k, hk, hfind⟩
        exact ⟨k + 1, by omega, by simp [hfind]⟩

/-- On a string of the shape `pre ++ pat ++ rest` where `pat` occurs at no
index before `pre.length`, the substring search finds `pat` exactly at index
`pre.length`. -/
theorem findSubstr_at_first_occurrence (pat pre rest : List α)
    (hfirst : ∀ j < pre.length, ¬ pat <+: (pre ++ pat ++ rest).drop j) :
    findSubstr pat (pre ++ pat ++ rest) = some pre.length := by
  have hocc : pat <+: (pre ++ pat ++ rest).drop pre.length := by
    rw [List.append_assoc, List.drop_left]
    exact List.prefix_append pat rest
  rcases findSubstr_le_of_prefix pat _ _ hocc with ⟨k, hk, hfind⟩
  rcases Nat.lt_or_ge k pre.length with hlt | hge
  · exact absurd (findSubstr_prefix_of_eq_some pat _ _ hfind) (hfirst k hlt)
  · have : k = pre.length := by omega
    subst this
    exact hfind

end FindSubstrLemmas

theorem findIdxQ_eq_none (l : List Char) (h : '?' ∉ l) :
    List.findIdx? (fun c => c = '?') l = none := by
  rw [List.findIdx?_eq_none_iff]
  intro x hx
  simp only [decide_eq_false_iff_not]
  exact fun hxq => h (hxq ▸ hx)

theorem findIdxQ_append_first (l t : List Char) (h : '?' ∉ l) :
    List.findIdx? (fun c => c = '?') (l ++ '?' :: t) = some l.length := by
  induction l with
  | nil => simp
  | cons a l' ih =>
    have ha : ¬ a = '?' := fun hq => h (by simp [hq])
    have h' : '?' ∉ l' := fun hm => h (List.mem_cons_of_mem a hm)
    simp only [List.cons_append, List.findIdx?_cons, decide_eq_true_eq]
    rw [if_neg ha, List.findIdx?_start_succ, ih h']
    simp

/-- Core extraction lemma: on a URL of the shape
`pre ++ "venues/" ++ slug ++ tail`, where the marker occurs at no earlier
index, the slug contains no '?', and the tail is empty or starts with '?',
`extract_venue_slug` returns exactly `slug`. -/
theorem extract_venue_slug_of_decomp (pre slug : List Char) (tl : Option (List Char))
    (hfirst : ∀ j < pre.length,
      ¬ markerChars <+: (pre ++ markerChars ++ (slug ++ optTail tl)).drop j)
    (hq : '?' ∉ slug) :
    extract_venue_slug (pre ++ markerChars ++ (slug ++ optTail tl)) = slug := by
  have hfind : findSubstr markerChars (pre ++ markerChars ++ (slug ++ optTail tl))
      = some pre.length :=
    findSubstr_at_first_occurrence markerChars pre (slug ++ optTail tl) hfirst
  have hlen : pre.length + 7 = (pre ++ markerChars).length := by
    simp [List.length_append, markerChars]
  have hdrop : (pre ++ markerChars ++ (slug ++ optTail tl)).drop (pre.length + 7)
      = slug ++ optTail tl := by
    rw [hlen, List.drop_left]
  rw [extract_venue_slug, hfind]
  simp only [hdrop]
  cases tl with
  | none =>
    simp only [optTail, List.append_nil]
    rw [findIdxQ_eq_none slug hq]
    simp
  | some t =>
    simp only [optTail]
    rw [findIdxQ_append_first slug t hq]
    simp [List.take_left]

/-- Claim C1: for every URL containing the marker "venues/" followed by a
slug (the text after the marker up to but not including the next '?', or up
to end of string) and optionally a '?' with trailing text,
`extract_venue_slug` returns exactly the slug; for every URL without the
marker (no occurrence at any index), it returns the empty string. -/
theorem claim_C1_extract_venue_slug_spec :
    (∀ (pre slug : List Char) (tl : Option (List Char)),
      (∀ j < pre.length,
        ¬ markerChars <+: (pre ++ markerChars ++ (slug ++ optTail tl)).drop j) →
      '?' ∉ slug →
      extract_venue_slug (pre ++ markerChars ++ (slug ++ optTail tl)) = slug)
    ∧ (∀ url : List Char,
      (∀ j < url.length, ¬ markerChars <+: url.drop j) →
      extract_venue_slug url = []) := by
  constructor
  · intro pre slug tl hfirst hq
    exact extract_venue_slug_of_decomp pre slug tl hfirst hq
  · intro url h
    rw [extract_venue_slug]
    cases hf : findSubstr markerChars url with
    | none => rfl
    | some k =>
      exfalso
      have hp := findSubstr_prefix_of_eq_some markerChars url k hf
      rcases Nat.lt_or_ge k url.length with hk | hk
      · exact h k hk hp
      · rw [List.drop_eq_nil_of_le hk] at hp
        have : markerChars = [] := List.prefix_nil.mp hp
        simp [markerChars] at this

/-- Witness for claim C1: a concrete URL with marker and query string yields
the slug, and a concrete URL without the marker yields the empty string. -/
theorem claim_C1_extract_venue_slug_spec_witness :
    extract_venue_slug ("https://resy.com/cities/ny/".toList ++ markerChars ++
        ("abc-bistro".toList ++ optTail (some "date=2024-01-01".toList)))
      = "abc-bistro".toList
    ∧ extract_venue_slug "https://resy.com/cities/ny/restaurants/abc-bistro".toList = [] :=
  ⟨claim_C1_extract_venue_slug_spec.1 "https://resy.com/cities/ny/".toList
      "abc-bistro".toList (some "date=2024-01-01".toList) (by decide) (by decide),
    claim_C1_extract_venue_slug_spec.2
      "https://resy.com/cities/ny/restaurants/abc-bistro".toList (by decide)⟩

/-- Claim C9: when the URL contains the marker "venues/" more than once,
`extract_venue_slug` uses the first occurrence, and the returned slug stops
only at the first '?' after that marker, so the slug may itself contain '/'
characters and even a second copy of the marker: on
`pre ++ "venues/" ++ a ++ "venues/" ++ b ++ "?" ++ tail` (first marker at
`pre.length`) the result is `a ++ "venues/" ++ b`. -/
theorem claim_C9_extract_venue_slug_first_marker (pre a b tail : List Char)
    (hfirst : ∀ j < pre.length,
      ¬ markerChars <+: (pre ++ markerChars ++
          ((a ++ markerChars ++ b) ++ optTail (some tail))).drop j)
    (ha : '?' ∉ a) (hb : '?' ∉ b) :
    extract_venue_slug (pre ++ markerChars ++
        ((a ++ markerChars ++ b) ++ optTail (some tail)))
      = a ++ markerChars ++ b := by
  apply extract_venue_slug_of_decomp pre (a ++ markerChars ++ b) (some tail) hfirst
  intro hmem
  rcases List.mem_append.mp hmem with hmem' | hmem''
  · rcases List.mem_append.mp hmem' with hma | hmm
    · exact ha hma
    · simp [markerChars] at hmm
  · exact hb hmem''

/-- Witness for claim C9: the concrete URL "x/venues/a/venues/b?q" yields the
slug "a/venues/b", which contains '/' and a second marker occurrence. -/
theorem claim_C9_extract_venue_slug_first_marker_witness :
    extract_venue_slug ("x/".toList ++ markerChars ++
        (("a/".toList ++ markerChars ++ "b".toList) ++ optTail (some "q".toList)))
      = "a/".toList ++ markerChars ++ "b".toList :=
  claim_C9_extract_venue_slug_first_marker "x/".toList "a/".toList "b".toList
    "q".toList (by decide) (by decide) (by decide)

/-- Claim C8: for every input URL, `ResyClient::get_venue_id` sets the
client's `venue_id` field to the fixed placeholder string
"Extracted ID based on URL", independently of the URL (equal results for any
two URLs), and leaves the credentials untouched; no venue id is derived from
the URL and no gateway call occurs (the definition references no gateway). -/
theorem claim_C8_get_venue_id_placeholder :
    ∀ (c : ResyClient) (url url' : List Char),
      (c.get_venue_id url).venue_id = "Extracted ID based on URL".toList
      ∧ c.get_venue_id url = c.get_venue_id url'
      ∧ (c.get_venue_id url).user_auth = c.user_auth := by
  intro c url url'
  exact ⟨rfl, rfl, rfl⟩

/-- Claim C2: for every HTTP response with a 2xx status whose body parses as
valid JSON, `process_response` returns `Ok` carrying exactly that JSON value,
and hence so does every gateway operation whose sent request the transport
answers with that response. -/
theorem claim_C2_success_returns_json_unchanged :
    ∀ (parseJson : List Char → Except (List Char) Json) (r : HttpResponse) (j : Json),
      is_success r.status = true → parseJson r.body = Except.ok j →
      process_response parseJson r = Except.ok j
      ∧ (∀ (g : ResyAPIGateway) (send : Request → Except (List Char) HttpResponse)
            (req : Request), g.get_user_request = some req →
          send req = Except.ok r → g.get_user send parseJson = some (Except.ok j))
      ∧ (∀ (g : ResyAPIGateway) send (slug : List Char) (req : Request),
          g.get_venue_request slug = some req →
          send req = Except.ok r → g.get_venue send parseJson slug = some (Except.ok j))
      ∧ (∀ (g : ResyAPIGateway) send (vid day : List Char) (ps : Nat) (req : Request),
          g.find_reservation_request vid day ps = some req →
          send req = Except.ok r →
          g.find_reservation send parseJson vid day ps = some (Except.ok j))
      ∧ (∀ (g : ResyAPIGateway) send (commit : Nat) (cid : List Char) (ps : Nat)
            (day : List Char) (req : Request),
          g.get_reservation_details_request commit cid ps day = some req →
          send req = Except.ok r →
          g.get_reservation_details send parseJson commit cid ps day
            = some (Except.ok j))
      ∧ (∀ (g : ResyAPIGateway) send (bt : List Char) (pid : Int) (req : Request),
          g.book_reservation_request bt pid = some req →
          send req = Except.ok r →
          g.book_reservation send parseJson bt pid = some (Except.ok j)) := by
  intro parseJson r j hs hp
  have hpr : process_response parseJson r = Except.ok j := by
    rw [process_response, if_pos hs, hp]
  refine ⟨hpr, ?_, ?_, ?_, ?_, ?_⟩
  · intro g send req hreq hsend
    simp only [ResyAPIGateway.get_user, run_request, hreq, hsend, hpr]
  · intro g send slug req hreq hsend
    simp only [ResyAPIGateway.get_venue, run_request, hreq, hsend, hpr]
  · intro g send vid day ps req hreq hsend
    simp only [ResyAPIGateway.find_reservation, run_request, hreq, hsend, hpr]
  · intro g send commit cid ps day req hreq hsend
    simp only [ResyAPIGateway.get_reservation_details, run_request, hreq, hsend, hpr]
  · intro g send bt pid req hreq hsend
    simp only [ResyAPIGateway.book_reservation, run_request, hreq, hsend, hpr]

/-- Witness for claim C2: a 200 response with body "null" comes back from
`process_response` and from `get_user` as the JSON value `null`. -/
theorem claim_C2_success_returns_json_unchanged_witness :
    process_response parseW rOk = Except.ok Json.null
    ∧ gW.get_user sendW parseW = some (Except.ok Json.null) := by
  have h := claim_C2_success_returns_json_unchanged parseW rOk Json.null rfl rfl
  exact ⟨h.1, h.2.1 gW sendW reqUserW rfl rfl⟩

/-- Claim C3: for every HTTP response whose status is not a success status,
`process_response` returns a `ResyAPIError` whose message string contains the
decimal rendering of the numeric status code. -/
theorem claim_C3_failure_status_error :
    ∀ (parseJson : List Char → Except (List Char) Json) (r : HttpResponse),
      is_success r.status = false →
      ∃ msg, process_response parseJson r = Except.error (DynError.resy { message := msg })
        ∧ (toString r.status).toList <:+: msg := by
  intro parseJson r h
  refine ⟨"API request failed: ".toList ++ statusDisplay r.status, ?_, ?_⟩
  · rw [process_response, if_neg (by simp [h])]
  · refine ⟨"API request failed: ".toList, ' ' :: canonicalReason r.status, ?_⟩
    simp [statusDisplay]

/-- Witness for claim C3: a 404 response produces a `ResyAPIError` whose
message contains "404". -/
theorem claim_C3_failure_status_error_witness :
    ∃ msg, process_response parseW r404 = Except.error (DynError.resy { message := msg })
      ∧ (toString r404.status).toList <:+: msg :=
  claim_C3_failure_status_error parseW r404 rfl

/-- Claim C4: for every HTTP response with a 2xx status whose body does not
parse as JSON, `process_response` returns the propagated parse error (so it
never returns `Ok` with a substitute value). -/
theorem claim_C4_parse_error_propagated :
    ∀ (parseJson : List Char → Except (List Char) Json) (r : HttpResponse)
      (m : List Char),
      is_success r.status = true → parseJson r.body = Except.error m →
      process_response parseJson r = Except.error (DynError.jsonParse m) := by
  intro parseJson r m hs hp
  rw [process_response, if_pos hs, hp]

/-- Witness for claim C4: a 200 response with the unparseable body "oops"
produces the parser's error. -/
theorem claim_C4_parse_error_propagated_witness :
    process_response parseW rBadBody
      = Except.error (DynError.jsonParse "invalid JSON".toList) :=
  claim_C4_parse_error_propagated parseW rBadBody "invalid JSON".toList rfl rfl

/-- Claim C5: for every book token and payment id, the request assembled by
`book_reservation` carries the form body
`book_token=<urlencoded token>&struct_payment_method=\x7b"id":<decimal id>\x7d`,
with the token percent-encoded and the payment id rendered in decimal inside
the embedded JSON fragment. -/
theorem claim_C5_book_reservation_body :
    ∀ (g : ResyAPIGateway) (book_token : List Char) (payment_id : Int) (req : Request),
      g.book_reservation_request book_token payment_id = some req →
      req.body = RequestBody.raw ("book_token=".toList ++ urlencode book_token ++
        "&struct_payment_method=\x7b\"id\":".toList ++
        (toString payment_id).toList ++ "\x7d".toList) := by
  intro g bt pid req h
  rw [ResyAPIGateway.book_reservation_request] at h
  rcases Option.map_eq_some'.mp h with ⟨hdrs, _, rfl⟩
  rfl

/-- Witness for claim C5: the concrete booking request for token "a b" and
payment id 7 carries the stated body, and the token is encoded as "a%20b". -/
theorem claim_C5_book_reservation_body_witness :
    reqBookW.body = RequestBody.raw ("book_token=".toList ++ urlencode "a b".toList ++
      "&struct_payment_method=\x7b\"id\":".toList ++
      (toString (7 : Int)).toList ++ "\x7d".toList)
    ∧ urlencode "a b".toList = "a%20b".toList :=
  ⟨claim_C5_book_reservation_body gW "a b".toList 7 reqBookW rfl, by decide⟩

theorem setup_headers_eq_some (g : ResyAPIGateway)
    (hdrs : List (List Char × List Char)) (h : g.setup_headers = some hdrs) :
    hdrs = [("Authorization".toList,
              "ResyAPI api_key=\"".toList ++ g.api_key ++ ['"']),
            ("x-resy-auth-token".toList, g.auth_token)] := by
  rw [ResyAPIGateway.setup_headers] at h
  split at h
  · split at h
    · cases h; rfl
    · cases h
  · cases h

/-- Claim C6: every request assembled by any of the five gateway operations
carries both required headers: `Authorization: ResyAPI api_key="<key>"` and
`x-resy-auth-token: <token>`. -/
theorem claim_C6_headers_on_every_request :
    ∀ (g : ResyAPIGateway) (req : Request),
      (g.get_user_request = some req
        ∨ (∃ slug, g.get_venue_request slug = some req)
        ∨ (∃ vid day ps, g.find_reservation_request vid day ps = some req)
        ∨ (∃ commit cid ps day,
            g.get_reservation_details_request commit cid ps day = some req)
        ∨ (∃ bt pid, g.book_reservation_request bt pid = some req)) →
      ("Authorization".toList,
        "ResyAPI api_key=\"".toList ++ g.api_key ++ ['"']) ∈ req.headers
      ∧ ("x-resy-auth-token".toList, g.auth_token) ∈ req.headers := by
  intro g req hcase
  rcases hcase with h | ⟨slug, h⟩ | ⟨vid, day, ps, h⟩ | ⟨commit, cid, ps, day, h⟩ |
    ⟨bt, pid, h⟩
  · rw [ResyAPIGateway.get_user_request] at h
    rcases Option.map_eq_some'.mp h with ⟨hdrs, hs, rfl⟩
    simp [setup_headers_eq_some g hdrs hs]
  · rw [ResyAPIGateway.get_venue_request] at h
    rcases Option.map_eq_some'.mp h with ⟨hdrs, hs, rfl⟩
    simp [setup_headers_eq_some g hdrs hs]
  · rw [ResyAPIGateway.find_reservation_request] at h
    rcases Option.map_eq_some'.mp h with ⟨hdrs, hs, rfl⟩
    simp [setup_headers_eq_some g hdrs hs]
  · rw [ResyAPIGateway.get_reservation_details_request] at h
    rcases Option.map_eq_some'.mp h with ⟨hdrs, hs, rfl⟩
    simp [setup_headers_eq_some g hdrs hs]
  · rw [ResyAPIGateway.book_reservation_request] at h
    rcases Option.map_eq_some'.mp h with ⟨hdrs, hs, rfl⟩
    simp [setup_headers_eq_some g hdrs hs]

/-- Witness for claim C6: the concrete `get_user` request of the witness
gateway carries both headers. -/
theorem claim_C6_headers_on_every_request_witness :
    ("Authorization".toList,
      "ResyAPI api_key=\"".toList ++ gW.api_key ++ ['"']) ∈ reqUserW.headers
    ∧ ("x-resy-auth-token".toList, gW.auth_token) ∈ reqUserW.headers :=
  claim_C6_headers_on_every_request gW reqUserW (Or.inl rfl)

theorem utf8Encode_append (a b : List Char) :
    utf8Encode (a ++ b) = utf8Encode a ++ utf8Encode b := by
  simp [utf8Encode]

/-- Claim C7: `setup_headers` hits its panicking branch (`unwrap` of
`HeaderValue::from_str`) exactly when a credential contains a byte that is
not a valid HTTP header value byte; with valid credentials the branch is
unreachable. -/
theorem claim_C7_setup_headers_panic_iff :
    ∀ g : ResyAPIGateway,
      g.setup_headers = none ↔
        ((∃ b ∈ utf8Encode g.api_key, headerByteValid b = false)
          ∨ (∃ b ∈ utf8Encode g.auth_token, headerByteValid b = false)) := by
  intro g
  have h1 : headerValueValid ("ResyAPI api_key=\"".toList ++ g.api_key ++ ['"'])
      = headerValueValid g.api_key := by
    rw [headerValueValid, headerValueValid, utf8Encode_append, utf8Encode_append,
      List.all_append, List.all_append]
    have hp : (utf8Encode "ResyAPI api_key=\"".toList).all headerByteValid = true := by
      decide
    have hq : (utf8Encode ['"']).all headerByteValid = true := by decide
    rw [hp, hq, Bool.true_and, Bool.and_true]
  have hiff1 : (∃ b ∈ utf8Encode g.api_key, headerByteValid b = false)
      ↔ headerValueValid g.api_key = false := by
    rw [headerValueValid]
    simp
  have hiff2 : (∃ b ∈ utf8Encode g.auth_token, headerByteValid b = false)
      ↔ headerValueValid g.auth_token = false := by
    rw [headerValueValid]
    simp
  rw [ResyAPIGateway.setup_headers, h1, hiff1, hiff2]
  cases hk : headerValueValid g.api_key <;>
    cases ht : headerValueValid g.auth_token <;> simp

/-- Witness for claim C7: an api key containing a newline (byte 10, an
invalid header byte) makes `setup_headers` hit the panic branch. -/
theorem claim_C7_setup_headers_panic_iff_witness :
    (ResyAPIGateway.new [Char.ofNat 10] []).setup_headers = none :=
  (claim_C7_setup_headers_panic_iff (ResyAPIGateway.new [Char.ofNat 10] [])).mpr
    (Or.inl ⟨10, by decide, by decide⟩)

theorem encodeChar_head_not_cont (c : Char) (b : Nat) (l : List Nat)
    (h : encodeChar c = b :: l) : isCont b = false := by
  rw [encodeChar] at h
  split at h
  · rename_i h1
    cases h
    simp only [isCont, Bool.and_eq_false_iff, decide_eq_false_iff_not]
    omega
  · split at h
    · cases h
      simp only [isCont, Bool.and_eq_false_iff, decide_eq_false_iff_not]
      omega
    · split at h
      · cases h
        simp only [isCont, Bool.and_eq_false_iff, decide_eq_false_iff_not]
        omega
      · cases h
        simp only [isCont, Bool.and_eq_false_iff, decide_eq_false_iff_not]
        omega

theorem encodeChar_ne_nil (c : Char) : encodeChar c ≠ [] := by
  rw [encodeChar]
  split
  · simp
  · split
    · simp
    · split <;> simp

theorem encodeChar_all_ge (c : Char) (hc : 128 ≤ c.toNat) :
    ∀ b ∈ encodeChar c, 128 ≤ b := by
  intro b hb
  rw [encodeChar] at hb
  split at hb
  · omega
  · split at hb
    · simp only [List.mem_cons, List.not_mem_nil, or_false] at hb
      rcases hb with rfl | rfl <;> omega
    · split at hb <;>
        · simp only [List.mem_cons, List.not_mem_nil, or_false] at hb
          rcases hb with rfl | rfl | rfl | rfl <;> omega

theorem utf8Encode_cons (c : Char) (cs : List Char) :
    utf8Encode (c :: cs) = encodeChar c ++ utf8Encode cs := by
  simp [utf8Encode]

theorem utf8Encode_head_not_cont (cs : List Char) (b : Nat) (l : List Nat)
    (h : utf8Encode cs = b :: l) : isCont b = false := by
  cases cs with
  | nil => simp [utf8Encode] at h
  | cons c cs' =>
    rw [utf8Encode_cons] at h
    rcases he : encodeChar c with _ | ⟨b0, l0⟩
    · exact absurd he (encodeChar_ne_nil c)
    · rw [he, List.cons_append] at h
      cases h
      exact encodeChar_head_not_cont c b l0 he

/-- In the UTF-8 encoding of any string, no continuation byte directly
follows an ASCII byte — the key fact making the byte after "venues/" a
character boundary. -/
theorem utf8_no_cont_after_ascii :
    ∀ (cs : List Char) (i b b' : Nat),
      (utf8Encode cs)[i]? = some b → b < 128 →
      (utf8Encode cs)[i + 1]? = some b' → isCont b' = false := by
  intro cs
  induction cs with
  | nil => intro i b b' hb; simp [utf8Encode] at hb
  | cons c cs' ih =>
    intro i b b' hb hba hb'
    rw [utf8Encode_cons] at hb hb'
    rcases Nat.lt_or_ge (i + 1) (encodeChar c).length with hlt | hge
    · by_cases hc : c.toNat < 128
      · have : (encodeChar c).length = 1 := by rw [encodeChar, if_pos hc]; rfl
        omega
      · rw [List.getElem?_append_left (by omega)] at hb
        have hmem : b ∈ encodeChar c := List.getElem?_mem hb
        have := encodeChar_all_ge c (by omega) b hmem
        omega
    · rcases Nat.lt_or_ge i (encodeChar c).length with hi | hi
      · have hk : i + 1 = (encodeChar c).length := by omega
        rw [List.getElem?_append_right hge, hk, Nat.sub_self] at hb'
        rcases hrest : utf8Encode cs' with _ | ⟨b0, l0⟩
        · rw [hrest] at hb'; simp at hb'
        · rw [hrest] at hb'
          simp only [List.getElem?_cons_zero, Option.some.injEq] at hb'
          subst hb'
          exact utf8Encode_head_not_cont cs' b0 l0 hrest
      · rw [List.getElem?_append_right hi] at hb
        rw [List.getElem?_append_right (by omega)] at hb'
        have harith : i + 1 - (encodeChar c).length = i - (encodeChar c).length + 1 := by
          omega
        rw [harith] at hb'
        exact ih (i - (encodeChar c).length) b b' hb hba hb'

theorem is_char_boundary_length (s : List Nat) :
    is_char_boundary s s.length = true := by
  rw [is_char_boundary]
  split
  · rfl
  · rw [List.getElem?_eq_none (Nat.le_refl s.length)]
    simp

theorem strSlice_eq_some (s : List Nat) (a b : Nat) (hab : a ≤ b)
    (ha : is_char_boundary s a = true) (hb : is_char_boundary s b = true) :
    strSlice s a b = some ((s.take b).drop a) := by
  rw [strSlice, if_pos]
  simp [hab, ha, hb]

/-- Claim C10: `extract_venue_slug` is total on every Rust string: for every
character sequence, the byte-exact model running on its UTF-8 encoding
reaches no panicking branch — every slice it takes is in bounds and on
character boundaries — and returns a result. (Determinism is definitional:
the model is a pure function of the input bytes.) -/
theorem claim_C10_extract_venue_slug_total :
    ∀ cs : List Char, ∃ out, extract_venue_slug_bytes (utf8Encode cs) = some out := by
  intro cs
  cases hfs : findSubstr markerBytes (utf8Encode cs) with
  | none => exact ⟨[], by simp [extract_venue_slug_bytes, hfs]⟩
  | some st =>
    rcases findSubstr_prefix_of_eq_some markerBytes (utf8Encode cs) st hfs with ⟨t, ht⟩
    have hlen7 : st + 7 ≤ (utf8Encode cs).length := by
      have h1 : (markerBytes ++ t).length = ((utf8Encode cs).drop st).length := by
        rw [ht]
      simp only [List.length_append, List.length_drop, markerBytes] at h1
      simp only [List.length_cons, List.length_nil] at h1
      omega
    have h47 : (utf8Encode cs)[st + 6]? = some 47 := by
      have h2 : ((utf8Encode cs).drop st)[6]? = some 47 := by
        rw [← ht]; simp [markerBytes]
      rwa [List.getElem?_drop] at h2
    have hbstart : is_char_boundary (utf8Encode cs) (st + 7) = true := by
      rw [is_char_boundary, if_neg (by omega)]
      cases hb : (utf8Encode cs)[st + 7]? with
      | none =>
        have hge : (utf8Encode cs).length ≤ st + 7 := List.getElem?_eq_none_iff.mp hb
        have heq : st + 7 = (utf8Encode cs).length := by omega
        simp [heq]
      | some b' =>
        have hnc : isCont b' = false :=
          utf8_no_cont_after_ascii cs (st + 6) 47 b' h47 (by omega) hb
        simp [hnc]
    have hslice1 : strSlice (utf8Encode cs) (st + 7) (utf8Encode cs).length
        = some ((utf8Encode cs).drop (st + 7)) := by
      rw [strSlice_eq_some (utf8Encode cs) (st + 7) (utf8Encode cs).length hlen7
        hbstart (is_char_boundary_length (utf8Encode cs)), List.take_length]
    cases hfq : ((utf8Encode cs).drop (st + 7)).findIdx? (fun b => b = 63) with
    | none =>
      refine ⟨(utf8Encode cs).drop (st + 7), ?_⟩
      have hend : st + 7 + ((utf8Encode cs).drop (st + 7)).length
          = (utf8Encode cs).length := by
        simp only [List.length_drop]
        omega
      simp only [extract_venue_slug_bytes, hfs, hslice1, hfq, Option.getD_none, hend,
        hslice1]
    | some e =>
      rcases List.findIdx?_eq_some_iff_getElem.mp hfq with ⟨helt, hpe, _⟩
      have hq' : ((utf8Encode cs).drop (st + 7))[e]?
          = some (((utf8Encode cs).drop (st + 7))[e]) := List.getElem?_eq_getElem helt
      have he63 : ((utf8Encode cs).drop (st + 7))[e] = 63 := by
        simpa using hpe
      have hq : (utf8Encode cs)[st + 7 + e]? = some 63 := by
        rw [← List.getElem?_drop, hq', he63]
      have hbend : is_char_boundary (utf8Encode cs) (st + 7 + e) = true := by
        rw [is_char_boundary, if_neg (by omega), hq]
        rfl
      refine ⟨((utf8Encode cs).take (st + 7 + e)).drop (st + 7), ?_⟩
      simp only [extract_venue_slug_bytes, hfs, hslice1, hfq, Option.getD_some]
      exact strSlice_eq_some (utf8Encode cs) (st + 7) (st + 7 + e) (by omega)
        hbstart hbend

end Marksman
